import Mathlib

/-!
Verification development for the battery simulation core.

The numeric domain of the source (64-bit floating point) is modelled by the
real numbers: every finite double is a real, arithmetic is idealised as exact
real arithmetic, and the NaN / infinity guards of the source constructors
become vacuous (no real is NaN or infinite).  Rust `Result` values are
modelled by `Except`, and the panicking cross-type operators (which call
`.expect` on a constructor result, src/types.rs lines 312-384) are modelled
as `Option`-valued functions where `none` stands for a panic.
-/

noncomputable section

namespace BatterySim

/-- src/types.rs line 4: `const MIN_VALUE: f64 = 1e-10`. -/
def MIN_VALUE : ℝ := 1e-10

/-- src/types.rs line 5: `const MAX_VALUE: f64 = 1e6`. -/
def MAX_VALUE : ℝ := 1e6

/- ---------------- Energy (src/types.rs lines 9-62) ---------------- -/

/-- src/types.rs lines 13-19: `Energy::from_kwh` errors when the value is
infinite, NaN (both impossible for a real) or strictly greater than
`MAX_VALUE`; otherwise it wraps the value. -/
def Energy.from_kwh (x : ℝ) : Except ℝ ℝ :=
  if x > MAX_VALUE then Except.error x else Except.ok x

/-- src/types.rs lines 32-34: `Energy::min` compares raw values directly. -/
def Energy.emin (a b : ℝ) : ℝ := min a b

/-- src/types.rs lines 36-38: `Energy::max` compares raw values directly. -/
def Energy.emax (a b : ℝ) : ℝ := max a b

/-- src/types.rs lines 50-55: `impl Add for Energy` builds the sum directly,
with no validation. -/
def Energy.add (a b : ℝ) : ℝ := a + b

/-- src/types.rs lines 57-62: `impl Sub for Energy` builds the difference
directly, with no validation. -/
def Energy.sub (a b : ℝ) : ℝ := a - b

/- ---------------- Power (src/types.rs lines 89-154) ---------------- -/

/-- src/types.rs lines 102-108: `Power::from_kw`, same validation shape as
`Energy::from_kwh`. -/
def Power.from_kw (x : ℝ) : Except ℝ ℝ :=
  if x > MAX_VALUE then Except.error x else Except.ok x

/-- src/types.rs lines 122-124: `Power::abs`. -/
def Power.pabs (a : ℝ) : ℝ := |a|

/-- src/types.rs lines 126-128: `Power::min`. -/
def Power.pmin (a b : ℝ) : ℝ := min a b

/-- src/types.rs lines 140-146: `impl Neg for Power`, direct negation. -/
def Power.pneg (a : ℝ) : ℝ := -a

/-- src/types.rs lines 148-154: `impl Sub for Power`, direct difference with
no validation. -/
def Power.psub (a b : ℝ) : ℝ := a - b

/- ---------------- Duration (src/types.rs lines 194-204) ---------------- -/

/-- src/types.rs lines 195-204: `Duration::from_hour` errors when the value
is infinite, NaN, or outside the inclusive range `MIN_VALUE..=MAX_VALUE`. -/
def Duration.from_hour (x : ℝ) : Except ℝ ℝ :=
  if x < MIN_VALUE ∨ x > MAX_VALUE then Except.error x else Except.ok x

/- ---------------- Efficiency (src/types.rs lines 252-274) ---------------- -/

/-- src/types.rs lines 256-265: `Efficiency::from_fraction` errors when the
value is infinite, NaN, at most `MIN_VALUE`, or above `1.0`. -/
def Efficiency.from_fraction (x : ℝ) : Except ℝ ℝ :=
  if x ≤ MIN_VALUE ∨ x > 1 then Except.error x else Except.ok x

/-- src/types.rs lines 271-273: `Efficiency::sqrt` takes the square root of
the raw value. -/
def Efficiency.esqrt (x : ℝ) : ℝ := Real.sqrt x

/- ------------- Cross-type operators (src/types.rs lines 312-384) -------------
Each of these multiplies or divides raw values, feeds the result to the
target constructor and calls `.expect`, which panics on a constructor error.
A panic is modelled as `none`. -/

/-- src/types.rs lines 312-319: `impl Mul Duration for Power` (Power times
Duration gives Energy), panicking on constructor failure. -/
def Power.mulDuration (p d : ℝ) : Option ℝ :=
  match Energy.from_kwh (p * d) with
  | Except.ok e => some e
  | Except.error _ => none

/-- src/types.rs lines 330-336: `impl Div Duration for Energy` (Energy over
Duration gives Power), panicking on constructor failure. -/
def Energy.divDuration (e d : ℝ) : Option ℝ :=
  match Power.from_kw (e / d) with
  | Except.ok p => some p
  | Except.error _ => none

/-- src/types.rs lines 338-344: `impl Div Efficiency for Power`, panicking
on constructor failure. -/
def Power.divEfficiency (p eff : ℝ) : Option ℝ :=
  match Power.from_kw (p / eff) with
  | Except.ok q => some q
  | Except.error _ => none

/-- src/types.rs lines 346-352: `impl Mul Efficiency for Power`, panicking
on constructor failure. -/
def Power.mulEfficiency (p eff : ℝ) : Option ℝ :=
  match Power.from_kw (p * eff) with
  | Except.ok q => some q
  | Except.error _ => none

/-- src/types.rs lines 362-368: `impl Div Efficiency for Energy`, panicking
on constructor failure. -/
def Energy.divEfficiency (e eff : ℝ) : Option ℝ :=
  match Energy.from_kwh (e / eff) with
  | Except.ok q => some q
  | Except.error _ => none

/-- src/types.rs lines 370-376: `impl Mul Efficiency for Energy`, panicking
on constructor failure. -/
def Energy.mulEfficiency (e eff : ℝ) : Option ℝ :=
  match Energy.from_kwh (e * eff) with
  | Except.ok q => some q
  | Except.error _ => none

/- ---------------- TelemetryPoint (src/types.rs lines 386-415) ---------------- -/

/-- src/types.rs lines 386-390: a telemetry point carries a duration in
hours, a solar power and a load power in kilowatts. -/
structure TelemetryPoint where
  duration : ℝ
  solar_power : ℝ
  load_power : ℝ

/-- src/types.rs lines 412-414: `excess_pv = solar_power - load_power`,
using the unvalidated Power subtraction. -/
def TelemetryPoint.excess_pv (t : TelemetryPoint) : ℝ :=
  Power.psub t.solar_power t.load_power

/- ---------------- Battery state and errors (src/battery.rs lines 4-61) ------- -/

/-- src/battery.rs lines 4-7: a battery state is a state of charge (Energy)
and a power (Power). -/
structure BatteryState where
  state_of_charge : ℝ
  power : ℝ

/-- src/battery.rs lines 53-61: errors of battery-state construction. -/
inductive BatteryStateError where
  | NegativeStateOfCharge : BatteryStateError
  | StateOfChargeGreaterThanCapacity : ℝ → ℝ → BatteryStateError
  | PowerGreaterThanMax : BatteryStateError

/-- src/battery.rs lines 41-51: errors of battery construction and of the
charge and discharge operations. -/
inductive BatteryError where
  | NonPositiveCapacity : BatteryError
  | NonPositiveMaxPower : BatteryError
  | ErrorCharging : BatteryStateError → BatteryError
  | ErrorDischarging : BatteryStateError → BatteryError

/- ---------------- Battery (src/battery.rs lines 34-188) ---------------- -/

/-- src/battery.rs lines 34-39: immutable battery configuration. -/
structure Battery where
  capacity : ℝ
  max_power : ℝ
  round_trip_efficiency : ℝ

/-- src/battery.rs lines 64-85: `Battery::new` rejects a non-positive
capacity and a non-positive max power. -/
def Battery.new (capacity max_power round_trip_efficiency : ℝ) :
    Except BatteryError Battery :=
  if capacity ≤ 0 then Except.error BatteryError.NonPositiveCapacity
  else if max_power ≤ 0 then Except.error BatteryError.NonPositiveMaxPower
  else Except.ok ⟨capacity, max_power, round_trip_efficiency⟩

/-- src/battery.rs lines 87-101: `Battery::init_state`, the validating
battery-state constructor. -/
def Battery.init_state (b : Battery) (state_of_charge power : ℝ) :
    Except BatteryStateError BatteryState :=
  if state_of_charge < 0 then Except.error BatteryStateError.NegativeStateOfCharge
  else if state_of_charge > b.capacity then
    Except.error (BatteryStateError.StateOfChargeGreaterThanCapacity state_of_charge b.capacity)
  else if Power.pabs power > b.max_power then
    Except.error BatteryStateError.PowerGreaterThanMax
  else Except.ok ⟨state_of_charge, power⟩

/-- src/battery.rs lines 102-104: the one-way efficiency is the square root
of the configured round-trip efficiency. -/
def Battery.efficiency (b : Battery) : ℝ :=
  Efficiency.esqrt b.round_trip_efficiency

/-- src/battery.rs lines 106-114: `max_achievable_charge_power`.  The source
expression `capacity_available / duration / self.efficiency()` goes through
two panicking operators before the direct `min`. -/
def Battery.max_achievable_charge_power (b : Battery) (s : BatteryState)
    (duration : ℝ) : Option ℝ :=
  let capacity_available := Energy.sub b.capacity s.state_of_charge
  match Energy.divDuration capacity_available duration with
  | none => none
  | some q =>
    match Power.divEfficiency q b.efficiency with
    | none => none
    | some power_to_fill => some (Power.pmin b.max_power power_to_fill)

/-- src/battery.rs lines 116-124: `max_achievable_discharge_power`.  The
source expression `state_of_charge / duration * self.efficiency()` goes
through two panicking operators before the direct `min`. -/
def Battery.max_achievable_discharge_power (b : Battery) (s : BatteryState)
    (duration : ℝ) : Option ℝ :=
  match Energy.divDuration s.state_of_charge duration with
  | none => none
  | some q =>
    match Power.mulEfficiency q b.efficiency with
    | none => none
    | some power_to_empty => some (Power.pmin b.max_power power_to_empty)

/-- src/battery.rs lines 126-138: `Battery::charge`.  Clamps the request to
the achievable charge power, adds `actual_power * duration * efficiency()`
to the state of charge (two panicking operators, then the direct Energy
addition and min), and revalidates through `init_state`, wrapping an error
as `ErrorCharging`. -/
def Battery.charge (b : Battery) (s : BatteryState) (power duration : ℝ) :
    Option (Except BatteryError BatteryState) :=
  match b.max_achievable_charge_power s duration with
  | none => none
  | some m =>
    let actual_power := Power.pmin power m
    match Power.mulDuration actual_power duration with
    | none => none
    | some e1 =>
      match Energy.mulEfficiency e1 b.efficiency with
      | none => none
      | some e2 =>
        let state_of_charge := Energy.emin (Energy.add s.state_of_charge e2) b.capacity
        match b.init_state state_of_charge actual_power with
        | Except.ok st => some (Except.ok st)
        | Except.error e => some (Except.error (BatteryError.ErrorCharging e))

/-- src/battery.rs lines 140-154: `Battery::discharge`.  Clamps the request
to the achievable discharge power, subtracts
`actual_power * duration / efficiency()` from the state of charge (two
panicking operators, then the direct Energy subtraction and max with zero),
and revalidates through `init_state`, wrapping an error as
`ErrorDischarging`. -/
def Battery.discharge (b : Battery) (s : BatteryState) (power duration : ℝ) :
    Option (Except BatteryError BatteryState) :=
  match b.max_achievable_discharge_power s duration with
  | none => none
  | some m =>
    let actual_power := Power.pmin power m
    match Power.mulDuration actual_power duration with
    | none => none
    | some e1 =>
      match Energy.divEfficiency e1 b.efficiency with
      | none => none
      | some e2 =>
        let state_of_charge := Energy.emax (Energy.sub s.state_of_charge e2) 0
        match b.init_state state_of_charge actual_power with
        | Except.ok st => some (Except.ok st)
        | Except.error e => some (Except.error (BatteryError.ErrorDischarging e))

/-- src/battery.rs lines 156-178: `Battery::step` dispatches on the sign of
the power command; the zero branch builds the state literally, without
`init_state`. -/
def Battery.step (b : Battery) (s : BatteryState) (power duration : ℝ) :
    Option (Except BatteryError BatteryState) :=
  if power < 0 then b.discharge s (Power.pneg power) duration
  else if power > 0 then b.charge s power duration
  else some (Except.ok ⟨s.state_of_charge, 0⟩)

/-- src/battery.rs lines 180-187: `Battery::load_follow_step` feeds the
excess PV power and the telemetry duration to `step`. -/
def Battery.load_follow_step (b : Battery) (s : BatteryState)
    (t : TelemetryPoint) : Option (Except BatteryError BatteryState) :=
  b.step s t.excess_pv t.duration

/- ---------------- Simulation (src/simulation.rs lines 5-28) ---------------- -/

/-- src/simulation.rs lines 5-9: the simulation error wraps a battery error
together with the zero-based index of the failing telemetry point. -/
inductive SimulationError where
  | ErrorSimulatingLoadFollowing : BatteryError → ℕ → SimulationError

/-- src/simulation.rs lines 17-25: the body of the `try_fold`.  The
accumulator is the trajectory built so far; `cur` is the last state pushed
(the source reads it back as `states[i]`), `i` the enumeration index. -/
def simulateLoop (b : Battery) : List TelemetryPoint → ℕ → BatteryState →
    List BatteryState → Option (Except SimulationError (List BatteryState))
  | [], _, _, acc => some (Except.ok acc)
  | p :: rest, i, cur, acc =>
    match b.load_follow_step cur p with
    | none => none
    | some (Except.error e) =>
      some (Except.error (SimulationError.ErrorSimulatingLoadFollowing e i))
    | some (Except.ok st) => simulateLoop b rest (i + 1) st (acc ++ [st])

/-- src/simulation.rs lines 11-28: `simulate_load_following` folds the
telemetry points from the vector `[initial_state]`. -/
def simulate_load_following (telemetry_points : List TelemetryPoint)
    (b : Battery) (initial_state : BatteryState) :
    Option (Except SimulationError (List BatteryState)) :=
  simulateLoop b telemetry_points 0 initial_state [initial_state]

/- ---------------- Specification-side helpers ---------------- -/

/-- The battery-state invariant of the specification: the state of charge
lies between zero and the capacity and the power magnitude is at most the
maximum power. -/
def ValidState (b : Battery) (s : BatteryState) : Prop :=
  0 ≤ s.state_of_charge ∧ s.state_of_charge ≤ b.capacity ∧ |s.power| ≤ b.max_power

/-- A successful chain of load-following steps: `followsChain b s ps l`
says that folding the telemetry points `ps` from state `s` succeeds at every
step and produces exactly the successive states `l`. -/
def followsChain (b : Battery) : BatteryState → List TelemetryPoint →
    List BatteryState → Prop
  | _, [], l => l = []
  | s, p :: ps, l =>
    ∃ s1 l1, l = s1 :: l1 ∧ b.load_follow_step s p = some (Except.ok s1) ∧
      followsChain b s1 ps l1

/-- Runs a prefix of load-following steps, reporting the final state, the
first battery error, or a panic, without recording indices. -/
def runSteps (b : Battery) : BatteryState → List TelemetryPoint →
    Option (Except BatteryError BatteryState)
  | s, [] => some (Except.ok s)
  | s, p :: ps =>
    match b.load_follow_step s p with
    | none => none
    | some (Except.error e) => some (Except.error e)
    | some (Except.ok st) => runSteps b st ps

/- ---------------- Basic lemmas about the quantity constructors ---------------- -/

theorem from_kwh_ok_iff (x y : ℝ) :
    Energy.from_kwh x = Except.ok y ↔ x ≤ MAX_VALUE ∧ y = x := by
  unfold Energy.from_kwh
  by_cases h : x > MAX_VALUE
  · simp only [if_pos h]
    constructor
    · intro hc; cases hc
    · rintro ⟨h1, _⟩; linarith
  · simp only [if_neg h, Except.ok.injEq]
    constructor
    · intro he; exact ⟨le_of_not_lt h, he.symm⟩
    · rintro ⟨_, he⟩; exact he.symm

theorem from_kw_ok_iff (x y : ℝ) :
    Power.from_kw x = Except.ok y ↔ x ≤ MAX_VALUE ∧ y = x := by
  unfold Power.from_kw
  by_cases h : x > MAX_VALUE
  · simp only [if_pos h]
    constructor
    · intro hc; cases hc
    · rintro ⟨h1, _⟩; linarith
  · simp only [if_neg h, Except.ok.injEq]
    constructor
    · intro he; exact ⟨le_of_not_lt h, he.symm⟩
    · rintro ⟨_, he⟩; exact he.symm

theorem mulDuration_some_iff (p d e : ℝ) :
    Power.mulDuration p d = some e ↔ p * d ≤ MAX_VALUE ∧ e = p * d := by
  unfold Power.mulDuration
  by_cases h : Energy.from_kwh (p * d) = Except.ok (p * d)
  · rw [h]
    have := (from_kwh_ok_iff (p * d) (p * d)).mp h
    simp only [Option.some.injEq]
    exact ⟨fun he => ⟨this.1, he.symm⟩, fun ⟨_, he⟩ => he.symm⟩
  · have hgt : MAX_VALUE < p * d := by
      by_contra hle
      exact h ((from_kwh_ok_iff (p * d) (p * d)).mpr ⟨le_of_not_lt hle, rfl⟩)
    unfold Energy.from_kwh
    rw [if_pos hgt]
    constructor
    · intro hc; cases hc
    · rintro ⟨h1, _⟩; linarith

theorem divDuration_some_iff (x d e : ℝ) :
    Energy.divDuration x d = some e ↔ x / d ≤ MAX_VALUE ∧ e = x / d := by
  unfold Energy.divDuration Power.from_kw
  by_cases h : x / d > MAX_VALUE
  · rw [if_pos h]
    constructor
    · intro hc; cases hc
    · rintro ⟨h1, _⟩; linarith
  · rw [if_neg h]
    simp only [Option.some.injEq]
    exact ⟨fun he => ⟨le_of_not_lt h, he.symm⟩, fun ⟨_, he⟩ => he.symm⟩

theorem pdivEfficiency_some_iff (p eff e : ℝ) :
    Power.divEfficiency p eff = some e ↔ p / eff ≤ MAX_VALUE ∧ e = p / eff := by
  unfold Power.divEfficiency Power.from_kw
  by_cases h : p / eff > MAX_VALUE
  · rw [if_pos h]
    constructor
    · intro hc; cases hc
    · rintro ⟨h1, _⟩; linarith
  · rw [if_neg h]
    simp only [Option.some.injEq]
    exact ⟨fun he => ⟨le_of_not_lt h, he.symm⟩, fun ⟨_, he⟩ => he.symm⟩

theorem pmulEfficiency_some_iff (p eff e : ℝ) :
    Power.mulEfficiency p eff = some e ↔ p * eff ≤ MAX_VALUE ∧ e = p * eff := by
  unfold Power.mulEfficiency Power.from_kw
  by_cases h : p * eff > MAX_VALUE
  · rw [if_pos h]
    constructor
    · intro hc; cases hc
    · rintro ⟨h1, _⟩; linarith
  · rw [if_neg h]
    simp only [Option.some.injEq]
    exact ⟨fun he => ⟨le_of_not_lt h, he.symm⟩, fun ⟨_, he⟩ => he.symm⟩

theorem edivEfficiency_some_iff (x eff e : ℝ) :
    Energy.divEfficiency x eff = some e ↔ x / eff ≤ MAX_VALUE ∧ e = x / eff := by
  unfold Energy.divEfficiency Energy.from_kwh
  by_cases h : x / eff > MAX_VALUE
  · rw [if_pos h]
    constructor
    · intro hc; cases hc
    · rintro ⟨h1, _⟩; linarith
  · rw [if_neg h]
    simp only [Option.some.injEq]
    exact ⟨fun he => ⟨le_of_not_lt h, he.symm⟩, fun ⟨_, he⟩ => he.symm⟩

theorem emulEfficiency_some_iff (x eff e : ℝ) :
    Energy.mulEfficiency x eff = some e ↔ x * eff ≤ MAX_VALUE ∧ e = x * eff := by
  unfold Energy.mulEfficiency Energy.from_kwh
  by_cases h : x * eff > MAX_VALUE
  · rw [if_pos h]
    constructor
    · intro hc; cases hc
    · rintro ⟨h1, _⟩; linarith
  · rw [if_neg h]
    simp only [Option.some.injEq]
    exact ⟨fun he => ⟨le_of_not_lt h, he.symm⟩, fun ⟨_, he⟩ => he.symm⟩

theorem init_state_ok_iff (b : Battery) (soc pw : ℝ) (s : BatteryState) :
    b.init_state soc pw = Except.ok s ↔
      0 ≤ soc ∧ soc ≤ b.capacity ∧ |pw| ≤ b.max_power ∧ s = ⟨soc, pw⟩ := by
  unfold Battery.init_state Power.pabs
  by_cases h1 : soc < 0
  · rw [if_pos h1]
    constructor
    · intro hc; cases hc
    · rintro ⟨hc, _⟩; linarith
  · rw [if_neg h1]
    by_cases h2 : soc > b.capacity
    · rw [if_pos h2]
      constructor
      · intro hc; cases hc
      · rintro ⟨_, hc, _⟩; linarith
    · rw [if_neg h2]
      by_cases h3 : |pw| > b.max_power
      · rw [if_pos h3]
        constructor
        · intro hc; cases hc
        · rintro ⟨_, _, hc, _⟩; linarith
      · rw [if_neg h3]
        simp only [Except.ok.injEq]
        constructor
        · intro he
          exact ⟨le_of_not_lt h1, le_of_not_lt h2, le_of_not_lt h3, he.symm⟩
        · rintro ⟨_, _, _, he⟩; exact he.symm

/- ---------------- Claim C2 ---------------- -/

/-- Claim C2 counterexample: the claim says a finite negative value whose
magnitude exceeds 1e6, such as -2e6, is rejected by `Energy::from_kwh` and
`Power::from_kw`; both constructors in fact accept it, because they only
compare the signed value against `MAX_VALUE`. -/
theorem spec_C2_counterexample :
    Energy.from_kwh (-2e6) = Except.ok (-2e6) ∧
      Power.from_kw (-2e6) = Except.ok (-2e6) := by
  constructor
  · exact (from_kwh_ok_iff _ _).mpr ⟨by norm_num [MAX_VALUE], rfl⟩
  · exact (from_kw_ok_iff _ _).mpr ⟨by norm_num [MAX_VALUE], rfl⟩

/-- Claim C2 amended: for every value (i.e. every finite double, the reals
of the model), `Energy::from_kwh` and `Power::from_kw` return an error
exactly when the signed value exceeds `MAX_VALUE = 1e6`; in particular
finite negative values of any magnitude are accepted. -/
theorem spec_C2_amended (x : ℝ) :
    (Energy.from_kwh x = Except.error x ↔ MAX_VALUE < x) ∧
      (Energy.from_kwh x = Except.ok x ↔ x ≤ MAX_VALUE) ∧
      (Power.from_kw x = Except.error x ↔ MAX_VALUE < x) ∧
      (Power.from_kw x = Except.ok x ↔ x ≤ MAX_VALUE) := by
  refine ⟨?_, ?_, ?_, ?_⟩
  · unfold Energy.from_kwh
    by_cases h : x > MAX_VALUE
    · rw [if_pos h]; simp [h]
    · rw [if_neg h]
      constructor
      · intro hc; cases hc
      · intro hc; exact absurd hc h
  · constructor
    · intro he; exact ((from_kwh_ok_iff x x).mp he).1
    · intro hle; exact (from_kwh_ok_iff x x).mpr ⟨hle, rfl⟩
  · unfold Power.from_kw
    by_cases h : x > MAX_VALUE
    · rw [if_pos h]; simp [h]
    · rw [if_neg h]
      constructor
      · intro hc; cases hc
      · intro hc; exact absurd hc h
  · constructor
    · intro he; exact ((from_kw_ok_iff x x).mp he).1
    · intro hle; exact (from_kw_ok_iff x x).mpr ⟨hle, rfl⟩

/- ---------------- Claim C9 ---------------- -/

/-- Claim C9 counterexample: the claim says a duration exactly equal to the
epsilon `MIN_VALUE = 1e-10` is rejected (accepted range strictly open at
epsilon); `Duration::from_hour` in fact accepts it, because the source uses
the inclusive range `MIN_VALUE..=MAX_VALUE`. -/
theorem spec_C9_counterexample :
    Duration.from_hour MIN_VALUE = Except.ok MIN_VALUE := by
  unfold Duration.from_hour
  rw [if_neg]
  push_neg
  constructor
  · exact le_refl _
  · norm_num [MIN_VALUE, MAX_VALUE]

/-- Claim C9 amended: `Duration::from_hour` fails exactly when the value is
NaN, infinite (both outside the real-valued model), strictly below the
epsilon `MIN_VALUE = 1e-10`, or above `MAX_VALUE = 1e6`; the accepted range
is the closed interval from `MIN_VALUE` to `MAX_VALUE`, inclusive at both
ends. -/
theorem spec_C9_amended (x : ℝ) :
    (Duration.from_hour x = Except.ok x ↔ MIN_VALUE ≤ x ∧ x ≤ MAX_VALUE) ∧
      (Duration.from_hour x = Except.error x ↔ x < MIN_VALUE ∨ MAX_VALUE < x) := by
  unfold Duration.from_hour
  by_cases h : x < MIN_VALUE ∨ x > MAX_VALUE
  · rw [if_pos h]
    constructor
    · constructor
      · intro hc; cases hc
      · rintro ⟨h1, h2⟩
        rcases h with h | h <;> linarith
    · simp [h]
  · rw [if_neg h]
    push_neg at h
    constructor
    · simp [h.1, h.2]
    · constructor
      · intro hc; cases hc
      · rintro (hc | hc) <;> [exact absurd hc (not_lt.mpr h.1); exact absurd hc (not_lt.mpr h.2)]

/- ---------------- Claim C5 ---------------- -/

/-- Claim C5: a zero-power step always succeeds and returns a state with
the same state of charge and exactly zero power, built literally in the
zero branch of `Battery::step` without routing through charge or
discharge. -/
theorem spec_C5_zero_step (b : Battery) (s : BatteryState) (d : ℝ) :
    b.step s 0 d = some (Except.ok ⟨s.state_of_charge, 0⟩) := by
  unfold Battery.step
  norm_num

/- ---------------- Claim C1 ---------------- -/

theorem valid_of_init_state (b : Battery) (soc pw : ℝ) (s : BatteryState)
    (h : b.init_state soc pw = Except.ok s) : ValidState b s := by
  obtain ⟨h1, h2, h3, rfl⟩ := (init_state_ok_iff b soc pw s).mp h
  exact ⟨h1, h2, h3⟩

theorem charge_ok_init (b : Battery) (s : BatteryState) (p d : ℝ)
    (s' : BatteryState) (h : b.charge s p d = some (Except.ok s')) :
    ∃ soc pw, b.init_state soc pw = Except.ok s' := by
  unfold Battery.charge at h
  split at h
  · cases h
  · dsimp only at h
    split at h
    · cases h
    · split at h
      · cases h
      · split at h
        · rename_i st heq
          refine ⟨_, _, heq.trans ?_⟩
          simp only [Option.some.injEq, Except.ok.injEq] at h
          rw [h]
        · simp only [Option.some.injEq] at h
          cases h

theorem discharge_ok_init (b : Battery) (s : BatteryState) (p d : ℝ)
    (s' : BatteryState) (h : b.discharge s p d = some (Except.ok s')) :
    ∃ soc pw, b.init_state soc pw = Except.ok s' := by
  unfold Battery.discharge at h
  split at h
  · cases h
  · dsimp only at h
    split at h
    · cases h
    · split at h
      · cases h
      · split at h
        · rename_i st heq
          refine ⟨_, _, heq.trans ?_⟩
          simp only [Option.some.injEq, Except.ok.injEq] at h
          rw [h]
        · simp only [Option.some.injEq] at h
          cases h

/-- Claim C1: for a battery with positive capacity and positive max power
and a valid input state, every state returned successfully by
`init_state`, `charge`, `discharge`, `step` or `load_follow_step`
satisfies the invariant `0 ≤ state_of_charge ≤ capacity` and
`|power| ≤ max_power`, including the zero-power branch of `step`, which
builds its state without going through `init_state`. -/
theorem spec_C1_invariants (b : Battery) (hcap : 0 < b.capacity)
    (hpow : 0 < b.max_power) (s : BatteryState) (hs : ValidState b s) :
    (∀ soc pw s', b.init_state soc pw = Except.ok s' → ValidState b s') ∧
      (∀ p d s', b.charge s p d = some (Except.ok s') → ValidState b s') ∧
      (∀ p d s', b.discharge s p d = some (Except.ok s') → ValidState b s') ∧
      (∀ p d s', b.step s p d = some (Except.ok s') → ValidState b s') ∧
      (∀ t s', b.load_follow_step s t = some (Except.ok s') → ValidState b s') := by
  have hstep : ∀ p d s', b.step s p d = some (Except.ok s') → ValidState b s' := by
    intro p d s' h
    unfold Battery.step at h
    split at h
    · obtain ⟨soc, pw, hinit⟩ := discharge_ok_init b s _ d s' h
      exact valid_of_init_state b soc pw s' hinit
    · split at h
      · obtain ⟨soc, pw, hinit⟩ := charge_ok_init b s p d s' h
        exact valid_of_init_state b soc pw s' hinit
      · simp only [Option.some.injEq, Except.ok.injEq] at h
        rw [← h]
        exact ⟨hs.1, hs.2.1, by simp [le_of_lt hpow]⟩
  refine ⟨?_, ?_, ?_, hstep, ?_⟩
  · intro soc pw s' h
    exact valid_of_init_state b soc pw s' h
  · intro p d s' h
    obtain ⟨soc, pw, hinit⟩ := charge_ok_init b s p d s' h
    exact valid_of_init_state b soc pw s' hinit
  · intro p d s' h
    obtain ⟨soc, pw, hinit⟩ := discharge_ok_init b s p d s' h
    exact valid_of_init_state b soc pw s' hinit
  · intro t s' h
    exact hstep _ _ s' h

/-- Claim C1 witness: the hypotheses are satisfiable, at the battery with
capacity 100, max power 50, round-trip efficiency 1, and the state with
state of charge 50 and power 0. -/
theorem spec_C1_invariants_witness :
    (0 : ℝ) < (Battery.mk 100 50 1).capacity ∧
      (0 : ℝ) < (Battery.mk 100 50 1).max_power ∧
      ValidState (Battery.mk 100 50 1) (BatteryState.mk 50 0) ∧
      (∀ soc pw s', (Battery.mk 100 50 1).init_state soc pw = Except.ok s' →
        ValidState (Battery.mk 100 50 1) s') := by
  have h1 : (0 : ℝ) < (Battery.mk 100 50 1).capacity := by norm_num
  have h2 : (0 : ℝ) < (Battery.mk 100 50 1).max_power := by norm_num
  have h3 : ValidState (Battery.mk 100 50 1) (BatteryState.mk 50 0) := by
    refine ⟨by norm_num, by norm_num, by norm_num⟩
  exact ⟨h1, h2, h3,
    (spec_C1_invariants (Battery.mk 100 50 1) h1 h2 (BatteryState.mk 50 0) h3).1⟩

/- ---------------- Claim C8 ---------------- -/

/-- Claim C8: for every battery whose round-trip efficiency passes the
`Efficiency::from_fraction` validation, `Battery::efficiency()` is the
square root of the round-trip efficiency, so its square equals the
round-trip efficiency (exactly, in the real-valued model). -/
theorem spec_C8_efficiency (b : Battery)
    (h : Efficiency.from_fraction b.round_trip_efficiency =
      Except.ok b.round_trip_efficiency) :
    b.efficiency ^ 2 = b.round_trip_efficiency := by
  have hr : ¬(b.round_trip_efficiency ≤ MIN_VALUE ∨ b.round_trip_efficiency > 1) := by
    intro hc
    unfold Efficiency.from_fraction at h
    rw [if_pos hc] at h
    cases h
  push_neg at hr
  have h0 : 0 ≤ b.round_trip_efficiency :=
    le_trans (by norm_num [MIN_VALUE]) (le_of_lt hr.1)
  unfold Battery.efficiency Efficiency.esqrt
  exact Real.sq_sqrt h0

/-- Claim C8 witness: at the battery with round-trip efficiency 1 the
hypothesis holds and the square of the one-way efficiency is the
round-trip efficiency. -/
theorem spec_C8_efficiency_witness :
    Efficiency.from_fraction (Battery.mk 100 50 1).round_trip_efficiency =
        Except.ok (Battery.mk 100 50 1).round_trip_efficiency ∧
      (Battery.mk 100 50 1).efficiency ^ 2 =
        (Battery.mk 100 50 1).round_trip_efficiency := by
  have h : Efficiency.from_fraction (Battery.mk 100 50 1).round_trip_efficiency =
      Except.ok (Battery.mk 100 50 1).round_trip_efficiency := by
    unfold Efficiency.from_fraction
    rw [if_neg]
    push_neg
    norm_num [MIN_VALUE]
  exact ⟨h, spec_C8_efficiency (Battery.mk 100 50 1) h⟩

/- ---------------- Claim C4 ---------------- -/

theorem mach_charge_elim (b : Battery) (s : BatteryState) (d m : ℝ)
    (hm : b.max_achievable_charge_power s d = some m) :
    m = min b.max_power ((b.capacity - s.state_of_charge) / d / b.efficiency) := by
  unfold Battery.max_achievable_charge_power at hm
  dsimp only at hm
  split at hm
  · cases hm
  · rename_i q hq
    obtain ⟨_, rfl⟩ := (divDuration_some_iff _ _ _).mp hq
    split at hm
    · cases hm
    · rename_i pf hpf
      obtain ⟨_, rfl⟩ := (pdivEfficiency_some_iff _ _ _).mp hpf
      simp only [Option.some.injEq] at hm
      rw [← hm]
      rfl

theorem mach_discharge_elim (b : Battery) (s : BatteryState) (d m : ℝ)
    (hm : b.max_achievable_discharge_power s d = some m) :
    m = min b.max_power (s.state_of_charge / d * b.efficiency) := by
  unfold Battery.max_achievable_discharge_power at hm
  split at hm
  · cases hm
  · rename_i q hq
    obtain ⟨_, rfl⟩ := (divDuration_some_iff _ _ _).mp hq
    split at hm
    · cases hm
    · rename_i pe hpe
      obtain ⟨_, rfl⟩ := (pmulEfficiency_some_iff _ _ _).mp hpe
      simp only [Option.some.injEq] at hm
      rw [← hm]
      rfl

theorem charge_ok_elim (b : Battery) (s : BatteryState) (p d m : ℝ)
    (s' : BatteryState) (hm : b.max_achievable_charge_power s d = some m)
    (h : b.charge s p d = some (Except.ok s')) :
    s'.power = min p m ∧
      s'.state_of_charge =
        min (s.state_of_charge + min p m * d * b.efficiency) b.capacity := by
  unfold Battery.charge at h
  rw [hm] at h
  dsimp only at h
  split at h
  · cases h
  · rename_i e1 he1
    obtain ⟨_, rfl⟩ := (mulDuration_some_iff _ _ _).mp he1
    split at h
    · cases h
    · rename_i e2 he2
      obtain ⟨_, rfl⟩ := (emulEfficiency_some_iff _ _ _).mp he2
      split at h
      · rename_i st hinit
        simp only [Option.some.injEq, Except.ok.injEq] at h
        subst h
        obtain ⟨_, _, _, rfl⟩ := (init_state_ok_iff _ _ _ _).mp hinit
        exact ⟨rfl, rfl⟩
      · simp only [Option.some.injEq] at h
        cases h

theorem discharge_ok_elim (b : Battery) (s : BatteryState) (p d m : ℝ)
    (s' : BatteryState) (hm : b.max_achievable_discharge_power s d = some m)
    (h : b.discharge s p d = some (Except.ok s')) :
    s'.power = min p m ∧
      s'.state_of_charge =
        max (s.state_of_charge - min p m * d / b.efficiency) 0 := by
  unfold Battery.discharge at h
  rw [hm] at h
  dsimp only at h
  split at h
  · cases h
  · rename_i e1 he1
    obtain ⟨_, rfl⟩ := (mulDuration_some_iff _ _ _).mp he1
    split at h
    · cases h
    · rename_i e2 he2
      obtain ⟨_, rfl⟩ := (edivEfficiency_some_iff _ _ _).mp he2
      split at h
      · rename_i st hinit
        simp only [Option.some.injEq, Except.ok.injEq] at h
        subst h
        obtain ⟨_, _, _, rfl⟩ := (init_state_ok_iff _ _ _ _).mp hinit
        exact ⟨rfl, rfl⟩
      · simp only [Option.some.injEq] at h
        cases h

/-- Claim C4 counterexample: at the battery with capacity 100, max power 50
and round-trip efficiency 1, starting from state of charge 95, a charge
request of 100 kW (above the max power 50) for one hour succeeds with
result power 5 -- the capacity-limited achievable power -- and not the max
power 50 that the claim requires. -/
theorem spec_C4_counterexample :
    (Battery.mk 100 50 1).charge (BatteryState.mk 95 0) 100 1 =
        some (Except.ok (BatteryState.mk 100 5)) ∧
      (Battery.mk (100:ℝ) 50 1).max_power < 100 ∧
      (BatteryState.mk (100:ℝ) 5).power ≠ (Battery.mk (100:ℝ) 50 1).max_power := by
  refine ⟨?_, by norm_num, by norm_num⟩
  norm_num [Battery.charge, Battery.max_achievable_charge_power, Energy.divDuration,
    Power.divEfficiency, Energy.sub, Power.from_kw, Power.pmin, Battery.efficiency,
    Efficiency.esqrt, MAX_VALUE, Power.mulDuration, Energy.mulEfficiency, Energy.from_kwh,
    Energy.emin, Energy.add, Battery.init_state, Power.pabs, MIN_VALUE]

/-- Claim C4 amended: charge and discharge clamp the requested power to the
achievable power `m = min(max_power, power-to-fill or power-to-empty)`, so
the result power is `min(requested, m)`: it is at most `max_power`, equals
`m` (not the requested value) whenever the request exceeds `m`, and equals
`max_power` only when the state-of-charge limit does not bind.  A charge
whose clamped energy reaches capacity yields state of charge exactly
`capacity`; a discharge whose clamped energy reaches zero yields state of
charge exactly `0`. -/
theorem spec_C4_amended (b : Battery) (s : BatteryState) (p d mc md : ℝ)
    (hmc : b.max_achievable_charge_power s d = some mc)
    (hmd : b.max_achievable_discharge_power s d = some md) :
    mc ≤ b.max_power ∧ md ≤ b.max_power ∧
      (∀ s', b.charge s p d = some (Except.ok s') →
        s'.power = min p mc ∧ s'.power ≤ b.max_power ∧
          (mc < p → s'.power = mc) ∧
          (b.capacity ≤ s.state_of_charge + min p mc * d * b.efficiency →
            s'.state_of_charge = b.capacity)) ∧
      (∀ s', b.discharge s p d = some (Except.ok s') →
        s'.power = min p md ∧
          (md < p → s'.power = md) ∧
          (s.state_of_charge - min p md * d / b.efficiency ≤ 0 →
            s'.state_of_charge = 0)) := by
  have hmc' := mach_charge_elim b s d mc hmc
  have hmd' := mach_discharge_elim b s d md hmd
  refine ⟨hmc' ▸ min_le_left _ _, hmd' ▸ min_le_left _ _, ?_, ?_⟩
  · intro s' h
    obtain ⟨hp, hsoc⟩ := charge_ok_elim b s p d mc s' hmc h
    refine ⟨hp, ?_, ?_, ?_⟩
    · rw [hp]
      exact le_trans (min_le_right _ _) (hmc' ▸ min_le_left _ _)
    · intro hlt
      rw [hp, min_eq_right (le_of_lt hlt)]
    · intro hge
      rw [hsoc, min_eq_right hge]
  · intro s' h
    obtain ⟨hp, hsoc⟩ := discharge_ok_elim b s p d md s' hmd h
    refine ⟨hp, ?_, ?_⟩
    · intro hlt
      rw [hp, min_eq_right (le_of_lt hlt)]
    · intro hle
      rw [hsoc, max_eq_right hle]

/-- Claim C4 amended witness: the achievable-power hypotheses hold at the
battery with capacity 100, max power 50, round-trip efficiency 1, state of
charge 50 and duration 1, where both achievable powers are 50. -/
theorem spec_C4_amended_witness :
    (Battery.mk 100 50 1).max_achievable_charge_power (BatteryState.mk 50 0) 1 =
        some 50 ∧
      (Battery.mk 100 50 1).max_achievable_discharge_power (BatteryState.mk 50 0) 1 =
        some 50 ∧
      (50:ℝ) ≤ (Battery.mk (100:ℝ) 50 1).max_power := by
  have h1 : (Battery.mk 100 50 1).max_achievable_charge_power
      (BatteryState.mk 50 0) 1 = some 50 := by
    norm_num [Battery.max_achievable_charge_power, Energy.divDuration, Power.divEfficiency,
      Energy.sub, Power.from_kw, Power.pmin, Battery.efficiency, Efficiency.esqrt, MAX_VALUE]
  have h2 : (Battery.mk 100 50 1).max_achievable_discharge_power
      (BatteryState.mk 50 0) 1 = some 50 := by
    norm_num [Battery.max_achievable_discharge_power, Energy.divDuration,
      Power.mulEfficiency, Power.from_kw, Power.pmin, Battery.efficiency,
      Efficiency.esqrt, MAX_VALUE]
  exact ⟨h1, h2,
    (spec_C4_amended (Battery.mk 100 50 1) (BatteryState.mk 50 0) 60 1 50 50 h1 h2).2.1⟩

/- ---------------- Claim C10 ---------------- -/

theorem efficiency_nonneg (b : Battery) : 0 ≤ b.efficiency := by
  unfold Battery.efficiency Efficiency.esqrt
  exact Real.sqrt_nonneg _

/-- Claim C10: for a successful discharge with a non-negative requested
power, the stored power of the result is the non-negative clamped magnitude
`min(requested, max_achievable_discharge_power)`; consequently, after a
`step` with a strictly negative power command the stored power of the
result is the non-negative discharge magnitude, strictly greater than the
negative command, not the negative value itself. -/
theorem spec_C10_discharge_power_sign (b : Battery) (s : BatteryState) (d m : ℝ)
    (hpow : 0 < b.max_power) (hsoc : 0 ≤ s.state_of_charge) (hd : 0 < d)
    (hm : b.max_achievable_discharge_power s d = some m) :
    0 ≤ m ∧
      (∀ p s', 0 ≤ p → b.discharge s p d = some (Except.ok s') →
        s'.power = min p m ∧ 0 ≤ s'.power) ∧
      (∀ p s', p < 0 → b.step s p d = some (Except.ok s') →
        s'.power = min (-p) m ∧ 0 ≤ s'.power ∧ p < s'.power) := by
  have hm0 : 0 ≤ m := by
    rw [mach_discharge_elim b s d m hm]
    exact le_min (le_of_lt hpow)
      (mul_nonneg (div_nonneg hsoc (le_of_lt hd)) (efficiency_nonneg b))
  have hdis : ∀ p s', 0 ≤ p → b.discharge s p d = some (Except.ok s') →
      s'.power = min p m ∧ 0 ≤ s'.power := by
    intro p s' hp h
    obtain ⟨hpw, _⟩ := discharge_ok_elim b s p d m s' hm h
    exact ⟨hpw, hpw ▸ le_min hp hm0⟩
  refine ⟨hm0, hdis, ?_⟩
  intro p s' hneg h
  unfold Battery.step at h
  rw [if_pos hneg] at h
  unfold Power.pneg at h
  obtain ⟨hpw, hge⟩ := hdis (-p) s' (by linarith) h
  exact ⟨hpw, hge, lt_of_lt_of_le hneg hge⟩

/-- Claim C10 witness: the hypotheses hold at the battery with capacity
100, max power 50, round-trip efficiency 1, state of charge 50, duration 1,
achievable discharge power 50. -/
theorem spec_C10_discharge_power_sign_witness :
    (0:ℝ) < (Battery.mk (100:ℝ) 50 1).max_power ∧
      (0:ℝ) ≤ (BatteryState.mk (50:ℝ) 0).state_of_charge ∧ (0:ℝ) < 1 ∧
      (Battery.mk 100 50 1).max_achievable_discharge_power (BatteryState.mk 50 0) 1 =
        some 50 ∧
      (0:ℝ) ≤ 50 := by
  have hm : (Battery.mk 100 50 1).max_achievable_discharge_power
      (BatteryState.mk 50 0) 1 = some 50 := by
    norm_num [Battery.max_achievable_discharge_power, Energy.divDuration,
      Power.mulEfficiency, Power.from_kw, Power.pmin, Battery.efficiency,
      Efficiency.esqrt, MAX_VALUE]
  refine ⟨by norm_num, by norm_num, by norm_num, hm, ?_⟩
  exact (spec_C10_discharge_power_sign (Battery.mk 100 50 1) (BatteryState.mk 50 0) 1 50
    (by norm_num) (by norm_num) (by norm_num) hm).1

/- ---------------- Claim C3 ---------------- -/

theorem mulDuration_none_iff (p d : ℝ) :
    Power.mulDuration p d = none ↔ MAX_VALUE < p * d := by
  unfold Power.mulDuration Energy.from_kwh
  by_cases h : p * d > MAX_VALUE
  · rw [if_pos h]
    simpa using h
  · rw [if_neg h]
    constructor
    · intro hc; cases hc
    · intro hc; exact absurd hc h

theorem divDuration_none_iff (x d : ℝ) :
    Energy.divDuration x d = none ↔ MAX_VALUE < x / d := by
  unfold Energy.divDuration Power.from_kw
  by_cases h : x / d > MAX_VALUE
  · rw [if_pos h]
    simpa using h
  · rw [if_neg h]
    constructor
    · intro hc; cases hc
    · intro hc; exact absurd hc h

theorem pdivEfficiency_none_iff (p eff : ℝ) :
    Power.divEfficiency p eff = none ↔ MAX_VALUE < p / eff := by
  unfold Power.divEfficiency Power.from_kw
  by_cases h : p / eff > MAX_VALUE
  · rw [if_pos h]
    simpa using h
  · rw [if_neg h]
    constructor
    · intro hc; cases hc
    · intro hc; exact absurd hc h

theorem pmulEfficiency_none_iff (p eff : ℝ) :
    Power.mulEfficiency p eff = none ↔ MAX_VALUE < p * eff := by
  unfold Power.mulEfficiency Power.from_kw
  by_cases h : p * eff > MAX_VALUE
  · rw [if_pos h]
    simpa using h
  · rw [if_neg h]
    constructor
    · intro hc; cases hc
    · intro hc; exact absurd hc h

theorem edivEfficiency_none_iff (x eff : ℝ) :
    Energy.divEfficiency x eff = none ↔ MAX_VALUE < x / eff := by
  unfold Energy.divEfficiency Energy.from_kwh
  by_cases h : x / eff > MAX_VALUE
  · rw [if_pos h]
    simpa using h
  · rw [if_neg h]
    constructor
    · intro hc; cases hc
    · intro hc; exact absurd hc h

theorem emulEfficiency_none_iff (x eff : ℝ) :
    Energy.mulEfficiency x eff = none ↔ MAX_VALUE < x * eff := by
  unfold Energy.mulEfficiency Energy.from_kwh
  by_cases h : x * eff > MAX_VALUE
  · rw [if_pos h]
    simpa using h
  · rw [if_neg h]
    constructor
    · intro hc; cases hc
    · intro hc; exact absurd hc h

/-- Claim C3 counterexample: two energies of 9e5 kWh each pass the
constructor validation, yet their sum is built by the Energy addition
operator as a stored 1.8e6 kWh value, one the constructor itself rejects --
the operator neither routes through the constructor nor fails. -/
theorem spec_C3_counterexample :
    Energy.from_kwh 900000 = Except.ok 900000 ∧
      Energy.add 900000 900000 = 1800000 ∧
      Energy.from_kwh (Energy.add 900000 900000) =
        Except.error (Energy.add 900000 900000) := by
  refine ⟨?_, ?_, ?_⟩
  · exact (from_kwh_ok_iff _ _).mpr ⟨by norm_num [MAX_VALUE], rfl⟩
  · norm_num [Energy.add]
  · unfold Energy.from_kwh
    rw [if_pos]
    norm_num [Energy.add, MAX_VALUE]

/-- Claim C3 amended: the same-type operators (Energy addition and
subtraction, Power subtraction and negation) construct their results
directly with no constructor validation and never fail, so two valid
operands can yield a stored out-of-range value; each of the six cross-type
operators (Power times Duration, Energy over Duration, Power over
Efficiency, Power times Efficiency, Energy over Efficiency, Energy times
Efficiency) does route through the constructor validation of its result
type, but surfaces a validation failure as a panic (modelled as `none`),
not as a returned error value, and on success returns exactly what the
constructor accepted. -/
theorem spec_C3_amended :
    (∀ a b : ℝ, Energy.add a b = a + b ∧ Energy.sub a b = a - b ∧
      Power.psub a b = a - b ∧ Power.pneg a = -a) ∧
      (∃ a b : ℝ, Energy.from_kwh a = Except.ok a ∧ Energy.from_kwh b = Except.ok b ∧
        Energy.from_kwh (Energy.add a b) = Except.error (Energy.add a b)) ∧
      (∀ p d : ℝ, (Power.mulDuration p d = none ↔ MAX_VALUE < p * d) ∧
        ∀ e, Power.mulDuration p d = some e → Energy.from_kwh (p * d) = Except.ok e) ∧
      (∀ x d : ℝ, (Energy.divDuration x d = none ↔ MAX_VALUE < x / d) ∧
        ∀ e, Energy.divDuration x d = some e → Power.from_kw (x / d) = Except.ok e) ∧
      (∀ p eff : ℝ, (Power.divEfficiency p eff = none ↔ MAX_VALUE < p / eff) ∧
        ∀ e, Power.divEfficiency p eff = some e → Power.from_kw (p / eff) = Except.ok e) ∧
      (∀ p eff : ℝ, (Power.mulEfficiency p eff = none ↔ MAX_VALUE < p * eff) ∧
        ∀ e, Power.mulEfficiency p eff = some e → Power.from_kw (p * eff) = Except.ok e) ∧
      (∀ x eff : ℝ, (Energy.divEfficiency x eff = none ↔ MAX_VALUE < x / eff) ∧
        ∀ e, Energy.divEfficiency x eff = some e →
          Energy.from_kwh (x / eff) = Except.ok e) ∧
      (∀ x eff : ℝ, (Energy.mulEfficiency x eff = none ↔ MAX_VALUE < x * eff) ∧
        ∀ e, Energy.mulEfficiency x eff = some e →
          Energy.from_kwh (x * eff) = Except.ok e) := by
  refine ⟨fun a b => ⟨rfl, rfl, rfl, rfl⟩, ?_, ?_, ?_, ?_, ?_, ?_, ?_⟩
  · refine ⟨900000, 900000, ?_, ?_, ?_⟩
    · exact (from_kwh_ok_iff _ _).mpr ⟨by norm_num [MAX_VALUE], rfl⟩
    · exact (from_kwh_ok_iff _ _).mpr ⟨by norm_num [MAX_VALUE], rfl⟩
    · unfold Energy.from_kwh
      rw [if_pos]
      norm_num [Energy.add, MAX_VALUE]
  · intro p d
    refine ⟨mulDuration_none_iff p d, ?_⟩
    intro e he
    obtain ⟨h1, rfl⟩ := (mulDuration_some_iff _ _ _).mp he
    exact (from_kwh_ok_iff _ _).mpr ⟨h1, rfl⟩
  · intro x d
    refine ⟨divDuration_none_iff x d, ?_⟩
    intro e he
    obtain ⟨h1, rfl⟩ := (divDuration_some_iff _ _ _).mp he
    exact (from_kw_ok_iff _ _).mpr ⟨h1, rfl⟩
  · intro p eff
    refine ⟨pdivEfficiency_none_iff p eff, ?_⟩
    intro e he
    obtain ⟨h1, rfl⟩ := (pdivEfficiency_some_iff _ _ _).mp he
    exact (from_kw_ok_iff _ _).mpr ⟨h1, rfl⟩
  · intro p eff
    refine ⟨pmulEfficiency_none_iff p eff, ?_⟩
    intro e he
    obtain ⟨h1, rfl⟩ := (pmulEfficiency_some_iff _ _ _).mp he
    exact (from_kw_ok_iff _ _).mpr ⟨h1, rfl⟩
  · intro x eff
    refine ⟨edivEfficiency_none_iff x eff, ?_⟩
    intro e he
    obtain ⟨h1, rfl⟩ := (edivEfficiency_some_iff _ _ _).mp he
    exact (from_kwh_ok_iff _ _).mpr ⟨h1, rfl⟩
  · intro x eff
    refine ⟨emulEfficiency_none_iff x eff, ?_⟩
    intro e he
    obtain ⟨h1, rfl⟩ := (emulEfficiency_some_iff _ _ _).mp he
    exact (from_kwh_ok_iff _ _).mpr ⟨h1, rfl⟩

/- ---------------- Claim C6 ---------------- -/

theorem followsChain_length (b : Battery) :
    ∀ (ps : List TelemetryPoint) (s : BatteryState) (l : List BatteryState),
      followsChain b s ps l → l.length = ps.length := by
  intro ps
  induction ps with
  | nil =>
    intro s l h
    simp only [followsChain] at h
    simp [h]
  | cons p rest ih =>
    intro s l h
    simp only [followsChain] at h
    obtain ⟨s1, l1, rfl, _, hchain⟩ := h
    simp [ih s1 l1 hchain]

theorem followsChain_get (b : Battery) :
    ∀ (ps : List TelemetryPoint) (s : BatteryState) (l : List BatteryState),
      followsChain b s ps l → ∀ i (hi : i < ps.length),
        ∃ s1 s2, (s :: l).get? i = some s1 ∧ (s :: l).get? (i + 1) = some s2 ∧
          b.load_follow_step s1 (ps.get ⟨i, hi⟩) = some (Except.ok s2) := by
  intro ps
  induction ps with
  | nil =>
    intro s l _ i hi
    exact absurd hi (by simp)
  | cons p rest ih =>
    intro s l h i hi
    simp only [followsChain] at h
    obtain ⟨s1, l1, rfl, hstep, hchain⟩ := h
    cases i with
    | zero => exact ⟨s, s1, rfl, rfl, hstep⟩
    | succ k =>
      have hk : k < rest.length := by simpa using hi
      obtain ⟨t1, t2, h1, h2, h3⟩ := ih s1 l1 hchain k hk
      exact ⟨t1, t2, h1, h2, h3⟩

theorem simulateLoop_of_chain (b : Battery) :
    ∀ (ps : List TelemetryPoint) (cur : BatteryState) (acc : List BatteryState)
      (i : ℕ) (l : List BatteryState), followsChain b cur ps l →
        simulateLoop b ps i cur acc = some (Except.ok (acc ++ l)) := by
  intro ps
  induction ps with
  | nil =>
    intro cur acc i l h
    simp only [followsChain] at h
    subst h
    simp [simulateLoop]
  | cons p rest ih =>
    intro cur acc i l h
    simp only [followsChain] at h
    obtain ⟨s1, l1, rfl, hstep, hchain⟩ := h
    simp only [simulateLoop, hstep]
    rw [ih s1 (acc ++ [s1]) (i + 1) l1 hchain]
    simp

/-- Claim C6: whenever every load-following step succeeds (the telemetry
points admit a full successful chain of states), `simulate_load_following`
returns the ordered trajectory whose length is the number of telemetry
points plus one, whose index 0 is the initial state, and whose index `i+1`
is the result of step `i` applied to the state at index `i`. -/
theorem spec_C6_trajectory (b : Battery) (telemetry : List TelemetryPoint)
    (s0 : BatteryState) (tail : List BatteryState)
    (hchain : followsChain b s0 telemetry tail) :
    simulate_load_following telemetry b s0 = some (Except.ok (s0 :: tail)) ∧
      (s0 :: tail).length = telemetry.length + 1 ∧
      (s0 :: tail).get? 0 = some s0 ∧
      ∀ i (hi : i < telemetry.length),
        ∃ s1 s2, (s0 :: tail).get? i = some s1 ∧
          (s0 :: tail).get? (i + 1) = some s2 ∧
          b.load_follow_step s1 (telemetry.get ⟨i, hi⟩) = some (Except.ok s2) := by
  refine ⟨?_, ?_, rfl, followsChain_get b telemetry s0 tail hchain⟩
  · have h := simulateLoop_of_chain b telemetry s0 [s0] 0 tail hchain
    simpa [simulate_load_following] using h
  · simp [followsChain_length b telemetry s0 tail hchain]

/-- Claim C6 witness: with the battery of capacity 100, max power 50 and
round-trip efficiency 1, one telemetry point of one hour with 10 kW solar
and 3 kW load charges the 50 kWh state to 57 kWh at 7 kW, and the
simulation returns the two-state trajectory. -/
theorem spec_C6_trajectory_witness :
    followsChain (Battery.mk 100 50 1) (BatteryState.mk 50 0)
        [TelemetryPoint.mk 1 10 3] [BatteryState.mk 57 7] ∧
      simulate_load_following [TelemetryPoint.mk 1 10 3] (Battery.mk 100 50 1)
          (BatteryState.mk 50 0) =
        some (Except.ok [BatteryState.mk 50 0, BatteryState.mk 57 7]) ∧
      ([BatteryState.mk (50:ℝ) 0, BatteryState.mk 57 7]).length = 1 + 1 := by
  have hstep : (Battery.mk 100 50 1).load_follow_step (BatteryState.mk 50 0)
      (TelemetryPoint.mk 1 10 3) = some (Except.ok (BatteryState.mk 57 7)) := by
    norm_num [Battery.load_follow_step, TelemetryPoint.excess_pv, Power.psub,
      Battery.step, Battery.charge, Battery.max_achievable_charge_power,
      Energy.divDuration, Power.divEfficiency, Energy.sub, Power.from_kw, Power.pmin,
      Battery.efficiency, Efficiency.esqrt, MAX_VALUE, Power.mulDuration,
      Energy.mulEfficiency, Energy.from_kwh, Energy.emin, Energy.add,
      Battery.init_state, Power.pabs, MIN_VALUE]
  have hchain : followsChain (Battery.mk 100 50 1) (BatteryState.mk 50 0)
      [TelemetryPoint.mk 1 10 3] [BatteryState.mk 57 7] := by
    refine ⟨BatteryState.mk 57 7, [], rfl, hstep, ?_⟩
    simp [followsChain]
  have h := spec_C6_trajectory (Battery.mk 100 50 1) [TelemetryPoint.mk 1 10 3]
    (BatteryState.mk 50 0) [BatteryState.mk 57 7] hchain
  exact ⟨hchain, h.1, h.2.1⟩

/- ---------------- Claim C7 ---------------- -/

theorem simulateLoop_first_fail (b : Battery) :
    ∀ (ps : List TelemetryPoint) (i : ℕ) (cur : BatteryState)
      (acc : List BatteryState) (k : ℕ) (hk : k < ps.length) (sk : BatteryState)
      (e : BatteryError),
      runSteps b cur (ps.take k) = some (Except.ok sk) →
      b.load_follow_step sk (ps.get ⟨k, hk⟩) = some (Except.error e) →
      simulateLoop b ps i cur acc =
        some (Except.error (SimulationError.ErrorSimulatingLoadFollowing e (i + k))) := by
  intro ps
  induction ps with
  | nil =>
    intro i cur acc k hk
    exact absurd hk (by simp)
  | cons p rest ih =>
    intro i cur acc k hk sk e hrun hfail
    cases k with
    | zero =>
      simp only [List.take_zero, runSteps, Option.some.injEq, Except.ok.injEq] at hrun
      subst hrun
      simp only [List.get] at hfail
      simp only [simulateLoop, hfail]
      norm_num
    | succ n =>
      simp only [List.take_succ_cons, runSteps] at hrun
      cases hstep : b.load_follow_step cur p with
      | none =>
        rw [hstep] at hrun
        cases hrun
      | some r =>
        cases r with
        | error e1 =>
          rw [hstep] at hrun
          simp at hrun
        | ok s1 =>
          rw [hstep] at hrun
          have hn : n < rest.length := by simpa using hk
          have hfail' : b.load_follow_step sk (rest.get ⟨n, hn⟩) =
              some (Except.error e) := hfail
          simp only [simulateLoop, hstep]
          rw [show i + (n + 1) = (i + 1) + n by omega]
          exact ih (i + 1) s1 (acc ++ [s1]) n hn sk e hrun hfail'

/-- Claim C7: when the first `i` load-following steps succeed and step `i`
fails with battery error `e`, the simulation returns an error (no partial
trajectory) wrapping `e` together with the zero-based index `i` of the
failing telemetry point. -/
theorem spec_C7_fail_fast (b : Battery) (telemetry : List TelemetryPoint)
    (s0 : BatteryState) (i : ℕ) (hi : i < telemetry.length) (si : BatteryState)
    (e : BatteryError)
    (hrun : runSteps b s0 (telemetry.take i) = some (Except.ok si))
    (hfail : b.load_follow_step si (telemetry.get ⟨i, hi⟩) = some (Except.error e)) :
    simulate_load_following telemetry b s0 =
      some (Except.error (SimulationError.ErrorSimulatingLoadFollowing e i)) := by
  have h := simulateLoop_first_fail b telemetry 0 s0 [s0] i hi si e hrun hfail
  simpa [simulate_load_following] using h

/-- Claim C7 witness: starting from a state of charge of 200 kWh (above
the 100 kWh capacity), the first telemetry point makes the charge step fail
with a power-greater-than-max error, and the simulation reports it at
index 0. -/
theorem spec_C7_fail_fast_witness :
    (0 : ℕ) < ([TelemetryPoint.mk (1:ℝ) 10 3]).length ∧
      runSteps (Battery.mk 100 50 1) (BatteryState.mk 200 0)
          (([TelemetryPoint.mk (1:ℝ) 10 3]).take 0) =
        some (Except.ok (BatteryState.mk 200 0)) ∧
      simulate_load_following [TelemetryPoint.mk 1 10 3] (Battery.mk 100 50 1)
          (BatteryState.mk 200 0) =
        some (Except.error (SimulationError.ErrorSimulatingLoadFollowing
          (BatteryError.ErrorCharging BatteryStateError.PowerGreaterThanMax) 0)) := by
  have hi : (0 : ℕ) < ([TelemetryPoint.mk (1:ℝ) 10 3]).length := by norm_num
  have hrun : runSteps (Battery.mk 100 50 1) (BatteryState.mk 200 0)
      (([TelemetryPoint.mk (1:ℝ) 10 3]).take 0) =
      some (Except.ok (BatteryState.mk 200 0)) := by
    simp [runSteps]
  have hfail : (Battery.mk 100 50 1).load_follow_step (BatteryState.mk 200 0)
      (([TelemetryPoint.mk (1:ℝ) 10 3]).get ⟨0, hi⟩) =
      some (Except.error
        (BatteryError.ErrorCharging BatteryStateError.PowerGreaterThanMax)) := by
    norm_num [Battery.load_follow_step, TelemetryPoint.excess_pv, Power.psub,
      Battery.step, Battery.charge, Battery.max_achievable_charge_power,
      Energy.divDuration, Power.divEfficiency, Energy.sub, Power.from_kw, Power.pmin,
      Battery.efficiency, Efficiency.esqrt, MAX_VALUE, Power.mulDuration,
      Energy.mulEfficiency, Energy.from_kwh, Energy.emin, Energy.add,
      Battery.init_state, Power.pabs, MIN_VALUE]
  exact ⟨hi, hrun, spec_C7_fail_fast (Battery.mk 100 50 1) [TelemetryPoint.mk 1 10 3]
    (BatteryState.mk 200 0) 0 hi (BatteryState.mk 200 0)
    (BatteryError.ErrorCharging BatteryStateError.PowerGreaterThanMax) hrun hfail⟩

end BatterySim
